import Mathlib

/-!
IronNotify delivery-reliability core: a shallow embedding.

This file embeds the delivery-reliability subsystem of the `ironnotify`
Rust SDK (src/types.rs, src/queue.rs, src/builder.rs, src/client.rs)
into Lean and proves the specified properties of the offline queue, the
send path and the flush/recovery procedure.

Modelling conventions:
* `serde_json::Value` metadata values are abstracted as their serialized
  text (`String`); no code under verification ever inspects their
  structure.
* `DateTime<Utc>` timestamps are abstracted as `Int` (epoch value); no
  code under verification ever inspects them.
* `HashMap<String, Value>` becomes an association list.
* The queue's persisted file is modelled as `Option (List
  NotificationPayload)`: `none` is a missing or unparsable file, `some l`
  a file whose JSON array parses to `l` (serde round-trips a serialized
  `Vec<NotificationPayload>`).  File-system writes are modelled as always
  succeeding; the code swallows write errors, so a failed write only
  leaves the old image in place and is not observable in-process.
* A Rust panic (`Vec::remove` out of bounds) is modelled by `Option`:
  `none` is an aborted execution.
* The transport is an oracle: `send` maps the index of the call (how many
  transport sends the client has perfomed before) and the payload to a
  `SendResult`, which covers every per-run behaviour of the real
  transport; `is_online` is the reachability probe's answer.  The client
  state carries the call counter `sent_calls`.
-/

/-- Rust `SeverityLevel` from src/types.rs. -/
inductive SeverityLevel where
  | info
  | success
  | warning
  | error
  | critical
deriving DecidableEq, Repr

/-- Rust `ConnectionState` from src/types.rs. -/
inductive ConnectionState where
  | disconnected
  | connecting
  | connected
  | reconnecting
deriving DecidableEq, Repr

/-- Rust `NotificationAction` from src/types.rs: a label plus optional url,
handler identifier and style. -/
structure NotificationAction where
  label : String
  url : Option String
  action : Option String
  style : Option String
deriving DecidableEq, Repr

/-- Rust `NotificationPayload` from src/types.rs.  Metadata values and the
expiry timestamp are abstracted (see the module docstring). -/
structure NotificationPayload where
  event_type : String
  title : String
  message : Option String
  severity : Option SeverityLevel
  metadata : Option (List (String × String))
  actions : Option (List NotificationAction)
  user_id : Option String
  group_key : Option String
  deduplication_key : Option String
  expires_at : Option Int
deriving DecidableEq, Repr

/-- Rust `NotificationPayload::new` from src/types.rs. -/
def NotificationPayload.new (event_type title : String) : NotificationPayload :=
  { event_type := event_type
    title := title
    message := none
    severity := some .info
    metadata := none
    actions := none
    user_id := none
    group_key := none
    deduplication_key := none
    expires_at := none }

/-- Rust `SendResult` from src/types.rs. -/
structure SendResult where
  success : Bool
  notification_id : Option String
  error : Option String
  queued : Bool
deriving DecidableEq, Repr

/-- Rust `SendResult::success(notification_id)` from src/types.rs (named
`mkSuccess` because `SendResult.success` is the field projection). -/
def SendResult.mkSuccess (notification_id : Option String) : SendResult :=
  { success := true, notification_id := notification_id, error := none, queued := false }

/-- Rust `SendResult::failure(error)` from src/types.rs. -/
def SendResult.mkFailure (error : String) : SendResult :=
  { success := false, notification_id := none, error := some error, queued := false }

/-- Rust `SendResult::queued(error)` from src/types.rs. -/
def SendResult.mkQueued (error : String) : SendResult :=
  { success := false, notification_id := none, error := some error, queued := true }

/-- Rust `Vec::remove(index)`: removes and shifts left, PANICS when the
index is out of bounds (`none`). -/
def vecRemove (l : List α) (i : Nat) : Option (List α) :=
  if i < l.length then some (l.eraseIdx i) else none

/-- Rust `OfflineQueue` from src/queue.rs.  `queue` is the in-memory sequence,
`storage` the contents of the persisted file at `storage_path` (see the
module docstring for the persistence model). -/
structure OfflineQueue where
  max_size : Nat
  debug : Bool
  queue : List NotificationPayload
  storage : Option (List NotificationPayload)
deriving DecidableEq, Repr

namespace OfflineQueue

/-- Rust `OfflineQueue::save_to_storage` from src/queue.rs: serializes the
whole in-memory sequence and rewrites the file with it. -/
def save_to_storage (q : OfflineQueue) : OfflineQueue :=
  { q with storage := some q.queue }

/-- Rust `OfflineQueue::new` + the private `load_from_storage` from
src/queue.rs: start from an empty vector, then overwrite it with the
parsed file contents when the file exists and parses. -/
def new (max_size : Nat) (debug : Bool)
    (storage : Option (List NotificationPayload)) : OfflineQueue :=
  { max_size := max_size
    debug := debug
    queue := match storage with
      | some l => l
      | none => []
    storage := storage }

/-- Rust `OfflineQueue::add` from src/queue.rs: when `len >= max_size` first
`Vec::remove(0)` (panics on an empty vector), then push the payload and
rewrite storage. -/
def add (q : OfflineQueue) (p : NotificationPayload) : Option OfflineQueue :=
  match (if q.max_size ≤ q.queue.length then vecRemove q.queue 0 else some q.queue) with
  | none => none
  | some l => some (save_to_storage { q with queue := l ++ [p] })

/-- Rust `OfflineQueue::get_all` from src/queue.rs: a snapshot of the
sequence. -/
def get_all (q : OfflineQueue) : List NotificationPayload :=
  q.queue

/-- Rust `OfflineQueue::remove` from src/queue.rs: remove at `index` and
rewrite storage when in bounds, otherwise do nothing. -/
def remove (q : OfflineQueue) (index : Nat) : OfflineQueue :=
  if index < q.queue.length then
    save_to_storage { q with queue := q.queue.eraseIdx index }
  else q

/-- Rust `OfflineQueue::clear` from src/queue.rs. -/
def clear (q : OfflineQueue) : OfflineQueue :=
  save_to_storage { q with queue := [] }

/-- Rust `OfflineQueue::size` from src/queue.rs. -/
def size (q : OfflineQueue) : Nat :=
  q.queue.length

/-- Rust `OfflineQueue::is_empty` from src/queue.rs. -/
def is_empty (q : OfflineQueue) : Bool :=
  q.queue.isEmpty

end OfflineQueue

/-- The transport oracle (collaborator contract of `Transport` in
src/transport.rs as consumed by the client): `send` yields the outcome of
the n-th transport send of the run, `is_online` the reachability
probe's answer. -/
structure TransportModel where
  send : Nat → NotificationPayload → SendResult
  is_online : Bool

/-- Rust `NotifyOptions` from src/config.rs (the fields the delivery core
consults; durations abstracted as `Nat` milliseconds). -/
structure NotifyOptions where
  api_key : String
  api_base_url : String
  ws_url : String
  debug : Bool
  enable_offline_queue : Bool
  max_offline_queue_size : Nat
  auto_reconnect : Bool
  max_reconnect_attempts : Nat
  reconnect_delay : Nat
  http_timeout : Nat
deriving DecidableEq, Repr

/-- Rust `NotifyOptions::default` from src/config.rs. -/
def NotifyOptions.default : NotifyOptions :=
  { api_key := ""
    api_base_url := "https://api.ironnotify.com"
    ws_url := "wss://ws.ironnotify.com"
    debug := false
    enable_offline_queue := true
    max_offline_queue_size := 100
    auto_reconnect := true
    max_reconnect_attempts := 5
    reconnect_delay := 1000
    http_timeout := 30000 }

/-- Rust `NotifyClient` from src/client.rs.  `sent_calls` is the index into the
transport oracle (number of transport sends performed so far); it is part
of the interaction model, not a Rust field. -/
structure NotifyClient where
  queue : Option OfflineQueue
  is_online : Bool
  connection_state : ConnectionState
  sent_calls : Nat
deriving DecidableEq, Repr

namespace NotifyClient

/-- Rust `NotifyClient::new` from src/client.rs: empty api key is a hard
error; the queue is constructed (loading `storage`) only when
`enable_offline_queue` is set; the client starts online and
disconnected. -/
def new (options : NotifyOptions)
    (storage : Option (List NotificationPayload)) :
    Except String NotifyClient :=
  if options.api_key = "" then .error "API key is required"
  else .ok
    { queue := if options.enable_offline_queue then
        some (OfflineQueue.new options.max_offline_queue_size options.debug storage)
      else none
      is_online := true
      connection_state := .disconnected
      sent_calls := 0 }

/-- Rust `NotifyClient::send_payload` from src/client.rs: one transport
attempt; on failure with a configured queue, enqueue the clone, mark
offline and return a queued result carrying the original error
(`result.error.unwrap_or_default()`); otherwise return the transport
result unchanged.  `none` is an aborted run (the enqueue panicked). -/
def send_payload (tr : TransportModel) (c : NotifyClient)
    (p : NotificationPayload) : Option (SendResult × NotifyClient) :=
  let result := tr.send c.sent_calls p
  let c1 := { c with sent_calls := c.sent_calls + 1 }
  if result.success = false then
    match c1.queue with
    | some q =>
      match q.add p with
      | none => none
      | some q' =>
        some (SendResult.mkQueued (result.error.getD ""),
          { c1 with queue := some q', is_online := false })
    | none => some (result, c1)
  else some (result, c1)

/-- The loop body of `NotifyClient::flush` from src/client.rs:
`for (i, payload) in notifications.iter().enumerate().rev()` visits the
snapshot indices `fuel-1, fuel-2, …, 0`; a successful send removes the
element from the live queue at its snapshot index, the first failure
breaks out.  Returns the live queue and the advanced transport call
counter. -/
def flushSweep (tr : TransportModel) (snapshot : List NotificationPayload)
    (q : OfflineQueue) (calls : Nat) : Nat → OfflineQueue × Nat
  | 0 => (q, calls)
  | i + 1 =>
    match snapshot[i]? with
    | none => (q, calls)
    | some p =>
      let result := tr.send calls p
      if result.success then flushSweep tr snapshot (q.remove i) (calls + 1) i
      else (q, calls + 1)

/-- Rust `NotifyClient::flush` from src/client.rs: return unchanged when no
queue is configured, the queue is empty, or the reachability probe says
offline; otherwise set `is_online := true`, snapshot the queue and sweep
it newest-first. -/
def flush (tr : TransportModel) (c : NotifyClient) : NotifyClient :=
  match c.queue with
  | none => c
  | some q =>
    if q.is_empty then c
    else if !tr.is_online then c
    else
      let snapshot := q.get_all
      let (q', calls') := flushSweep tr snapshot q c.sent_calls snapshot.length
      { c with is_online := true, queue := some q', sent_calls := calls' }

end NotifyClient

/-- The in-memory payload sequence held by the client's queue (empty when
no queue is configured). -/
def queueList (c : NotifyClient) : List NotificationPayload :=
  match c.queue with
  | none => []
  | some q => q.queue

/-- Rust `EventBuilder` from src/builder.rs (the owning client reference is
passed explicitly to `send` instead of being stored). -/
structure EventBuilder where
  event_type : String
  title : Option String
  message : Option String
  severity : SeverityLevel
  metadata : List (String × String)
  actions : List NotificationAction
  user_id : Option String
  group_key : Option String
  deduplication_key : Option String
  expires_at : Option Int
deriving DecidableEq, Repr

namespace EventBuilder

/-- Rust `EventBuilder::new` from src/builder.rs. -/
def new (event_type : String) : EventBuilder :=
  { event_type := event_type
    title := none
    message := none
    severity := .info
    metadata := []
    actions := []
    user_id := none
    group_key := none
    deduplication_key := none
    expires_at := none }

/-- Rust `EventBuilder::with_title` from src/builder.rs. -/
def with_title (b : EventBuilder) (title : String) : EventBuilder :=
  { b with title := some title }

/-- Rust `EventBuilder::with_message` from src/builder.rs. -/
def with_message (b : EventBuilder) (message : String) : EventBuilder :=
  { b with message := some message }

/-- Rust `EventBuilder::build` from src/builder.rs: fail with the validation
error when no title was ever set, otherwise assemble the payload. -/
def build (b : EventBuilder) : Except String NotificationPayload :=
  match b.title with
  | none => .error "Notification title is required"
  | some title => .ok
    { event_type := b.event_type
      title := title
      message := b.message
      severity := some b.severity
      metadata := if b.metadata.isEmpty then none else some b.metadata
      actions := if b.actions.isEmpty then none else some b.actions
      user_id := b.user_id
      group_key := b.group_key
      deduplication_key := b.deduplication_key
      expires_at := b.expires_at }

/-- Rust `EventBuilder::send` from src/builder.rs: deliver the built payload
through the client, or return a plain failure result (touching neither
the transport nor the client state) when the build failed. -/
def send (b : EventBuilder) (tr : TransportModel) (c : NotifyClient) :
    Option (SendResult × NotifyClient) :=
  match b.build with
  | .ok payload => c.send_payload tr payload
  | .error e => some (SendResult.mkFailure e, c)

end EventBuilder

/-- Concrete payloads used in the witness scenarios. -/
def pA : NotificationPayload := NotificationPayload.new "order.created" "A"

def pB : NotificationPayload := NotificationPayload.new "order.created" "B"

def pC : NotificationPayload := NotificationPayload.new "order.created" "C"

/-- A reachable transport that fails exactly on payload `C` and succeeds
on everything else. -/
def trFailOnC : TransportModel :=
  { send := fun _ p =>
      if p.title = "C" then SendResult.mkFailure "boom"
      else SendResult.mkSuccess none
    is_online := true }

/-- A reachable transport that always delivers. -/
def trAllOk : TransportModel :=
  { send := fun _ _ => SendResult.mkSuccess none, is_online := true }

/-- An unreachable transport that always fails with a network error. -/
def trDown : TransportModel :=
  { send := fun _ _ => SendResult.mkFailure "net down", is_online := false }

/-- A client whose queue (capacity 2) holds `[B, C]`, oldest first. -/
def cBC : NotifyClient :=
  { queue := some { max_size := 2, debug := false, queue := [pB, pC], storage := some [pB, pC] }
    is_online := false
    connection_state := .disconnected
    sent_calls := 0 }

/-- A client whose queue (capacity 1) is full, holding `[A]`. -/
def cFull1 : NotifyClient :=
  { queue := some { max_size := 1, debug := false, queue := [pA], storage := some [pA] }
    is_online := true
    connection_state := .disconnected
    sent_calls := 0 }

/-- A mutating queue operation, used to range over every sequence of
operations on an `OfflineQueue`. -/
inductive QueueOp where
  | add (p : NotificationPayload)
  | remove (i : Nat)
  | clear
deriving DecidableEq, Repr

/-- Runs one mutating operation (`none` is an aborted run). -/
def applyOp (q : OfflineQueue) : QueueOp → Option OfflineQueue
  | .add p => q.add p
  | .remove i => some (q.remove i)
  | .clear => some q.clear

/-- Runs a sequence of mutating operations. -/
def applyOps : OfflineQueue → List QueueOp → Option OfflineQueue
  | q, [] => some q
  | q, op :: ops =>
    match applyOp q op with
    | none => none
    | some q' => applyOps q' ops

/-- Removing the last element of a `take (i+1)` prefix leaves `take i`. -/
theorem take_succ_eraseIdx (l : List α) (i : Nat) :
    (l.take (i+1)).eraseIdx i = l.take i := by
  simp [List.eraseIdx_eq_take_drop_succ, List.take_take, List.drop_take]

/-- Rust `Vec::remove(0)` is `tail` on a nonempty vector. -/
theorem eraseIdx_zero (l : List α) : l.eraseIdx 0 = l.tail := by
  cases l <;> rfl

namespace NotifyClient

/-- When the live queue holds the first `k` snapshot elements and every
remaining attempt succeeds, the sweep empties the queue and performs `k`
transport calls. -/
theorem flushSweep_all_success (tr : TransportModel)
    (snap : List NotificationPayload) (k : Nat) :
    ∀ (q : OfflineQueue) (calls : Nat),
      k ≤ snap.length → q.queue = snap.take k →
      (∀ i p, i < k → snap[i]? = some p →
        (tr.send (calls + (k - 1 - i)) p).success = true) →
      (flushSweep tr snap q calls k).1.queue = [] ∧
        (flushSweep tr snap q calls k).2 = calls + k := by
  induction k with
  | zero =>
    intro q calls _ hq _
    simpa [flushSweep] using hq
  | succ i ih =>
    intro q calls hk hq hs
    have hi : i < snap.length := Nat.lt_of_lt_of_le (Nat.lt_succ_self i) hk
    have hget : snap[i]? = some snap[i] := List.getElem?_eq_getElem hi
    have hsucc : (tr.send calls snap[i]).success = true := by
      have h := hs i snap[i] (Nat.lt_succ_self i) hget
      simpa using h
    have hlen : (q.queue).length = i + 1 := by
      rw [hq, List.length_take]
      omega
    have hrem : (q.remove i).queue = snap.take i := by
      unfold OfflineQueue.remove
      rw [if_pos (by omega)]
      simp [OfflineQueue.save_to_storage, hq, take_succ_eraseIdx]
    have hstep := ih (q.remove i) (calls + 1) (Nat.le_of_succ_le hk) hrem
      (fun i' p hi' hp => by
        have h := hs i' p (Nat.lt_succ_of_lt hi') hp
        have harith : calls + 1 + (i - 1 - i') = calls + (i + 1 - 1 - i') := by omega
        rwa [harith])
    unfold flushSweep
    rw [hget]
    simp only [hsucc, if_pos]
    refine ⟨hstep.1, ?_⟩
    rw [hstep.2]
    omega

end NotifyClient

namespace NotifyClient

/-- When the live queue holds the first `k` snapshot elements, every
attempt above index `m` succeeds and the attempt at `m` fails, the sweep
stops with the first `m + 1` snapshot elements still queued, after
`k - m` transport calls. -/
theorem flushSweep_fail_at (tr : TransportModel)
    (snap : List NotificationPayload) (k : Nat) :
    ∀ (q : OfflineQueue) (calls : Nat) (m : Nat) (pm : NotificationPayload),
      k ≤ snap.length → q.queue = snap.take k →
      m < k → snap[m]? = some pm →
      (∀ i p, m < i → i < k → snap[i]? = some p →
        (tr.send (calls + (k - 1 - i)) p).success = true) →
      (tr.send (calls + (k - 1 - m)) pm).success = false →
      (flushSweep tr snap q calls k).1.queue = snap.take (m + 1) ∧
        (flushSweep tr snap q calls k).2 = calls + (k - m) := by
  induction k with
  | zero =>
    intro q calls m pm _ _ hm _ _ _
    omega
  | succ i ih =>
    intro q calls m pm hk hq hm hpm hs hf
    have hi : i < snap.length := Nat.lt_of_lt_of_le (Nat.lt_succ_self i) hk
    have hget : snap[i]? = some snap[i] := List.getElem?_eq_getElem hi
    rcases Nat.lt_or_ge m i with hmi | hmi
    · -- the newest element succeeds, recurse
      have hsucc : (tr.send calls snap[i]).success = true := by
        have h := hs i snap[i] hmi (Nat.lt_succ_self i) hget
        simpa using h
      have hrem : (q.remove i).queue = snap.take i := by
        unfold OfflineQueue.remove
        rw [if_pos (by rw [hq, List.length_take]; omega)]
        simp [OfflineQueue.save_to_storage, hq, take_succ_eraseIdx]
      have hstep := ih (q.remove i) (calls + 1) m pm (Nat.le_of_succ_le hk) hrem
        hmi hpm
        (fun i' p hmi' hi' hp => by
          have h := hs i' p hmi' (Nat.lt_succ_of_lt hi') hp
          have harith : calls + 1 + (i - 1 - i') = calls + (i + 1 - 1 - i') := by omega
          rwa [harith])
        (by
          have harith : calls + 1 + (i - 1 - m) = calls + (i + 1 - 1 - m) := by omega
          rwa [harith])
      unfold flushSweep
      rw [hget]
      simp only [hsucc, if_pos]
      refine ⟨hstep.1, ?_⟩
      rw [hstep.2]
      omega
    · -- m = i: the newest attempt fails, stop with the queue untouched
      have hmeq : m = i := by omega
      subst hmeq
      have hpm' : pm = snap[m] := by
        rw [hget] at hpm
        exact (Option.some.inj hpm).symm
      have hfail : (tr.send calls snap[m]).success = false := by
        rw [hpm'] at hf
        simpa using hf
      unfold flushSweep
      rw [hget]
      simp only [hfail, Bool.false_eq_true, if_false]
      exact ⟨hq, by omega⟩

/-- Whatever the transport does, the sweep leaves some `take` prefix of
the snapshot as the live queue. -/
theorem flushSweep_take (tr : TransportModel)
    (snap : List NotificationPayload) (k : Nat) :
    ∀ (q : OfflineQueue) (calls : Nat),
      k ≤ snap.length → q.queue = snap.take k →
      ∃ j, j ≤ k ∧ (flushSweep tr snap q calls k).1.queue = snap.take j := by
  induction k with
  | zero =>
    intro q calls _ hq
    exact ⟨0, Nat.le_refl 0, by simpa [flushSweep] using hq⟩
  | succ i ih =>
    intro q calls hk hq
    have hi : i < snap.length := Nat.lt_of_lt_of_le (Nat.lt_succ_self i) hk
    have hget : snap[i]? = some snap[i] := List.getElem?_eq_getElem hi
    by_cases hsucc : (tr.send calls snap[i]).success = true
    · have hrem : (q.remove i).queue = snap.take i := by
        unfold OfflineQueue.remove
        rw [if_pos (by rw [hq, List.length_take]; omega)]
        simp [OfflineQueue.save_to_storage, hq, take_succ_eraseIdx]
      obtain ⟨j, hj, hres⟩ := ih (q.remove i) (calls + 1) (Nat.le_of_succ_le hk) hrem
      refine ⟨j, Nat.le_succ_of_le hj, ?_⟩
      unfold flushSweep
      rw [hget]
      simpa [hsucc] using hres
    · have hfail : (tr.send calls snap[i]).success = false := by
        simpa using hsucc
      refine ⟨i + 1, Nat.le_refl _, ?_⟩
      unfold flushSweep
      rw [hget]
      simp [hfail, hq]

end NotifyClient

namespace NotifyClient

/-- Rust `flush` is the identity when no queue is configured. -/
theorem flush_id_of_no_queue (tr : TransportModel) (c : NotifyClient)
    (hq : c.queue = none) : flush tr c = c := by
  unfold flush
  rw [hq]

/-- Rust `flush` is the identity when the queue is empty. -/
theorem flush_id_of_empty (tr : TransportModel) (c : NotifyClient)
    (q : OfflineQueue) (hq : c.queue = some q) (he : q.queue = []) :
    flush tr c = c := by
  unfold flush
  rw [hq]
  simp [OfflineQueue.is_empty, he]

/-- Rust `flush` is the identity when the reachability probe says
offline. -/
theorem flush_id_of_offline (tr : TransportModel) (c : NotifyClient)
    (hon : tr.is_online = false) : flush tr c = c := by
  unfold flush
  cases hq : c.queue with
  | none => rfl
  | some q =>
    by_cases he : q.is_empty
    · simp [he]
    · simp [he, hon]

/-- Rust `flush` in the active case: mark online, snapshot, sweep. -/
theorem flush_active (tr : TransportModel) (c : NotifyClient)
    (q : OfflineQueue) (hq : c.queue = some q)
    (hne : q.queue.isEmpty = false) (hon : tr.is_online = true) :
    flush tr c =
      { c with
        is_online := true
        queue := some (flushSweep tr q.queue q c.sent_calls q.queue.length).1
        sent_calls := (flushSweep tr q.queue q c.sent_calls q.queue.length).2 } := by
  unfold flush
  rw [hq]
  simp [OfflineQueue.is_empty, hne, hon, OfflineQueue.get_all]

end NotifyClient

/-- Rust `OfflineQueue::add` never panics when `max_size ≥ 1`: evict the
head when at (or beyond) capacity, then append and persist. -/
theorem OfflineQueue.add_eq_of_pos (q : OfflineQueue) (p : NotificationPayload)
    (h : 1 ≤ q.max_size) :
    q.add p = some (OfflineQueue.save_to_storage { q with
      queue := (if q.max_size ≤ q.queue.length then q.queue.tail else q.queue) ++ [p] }) := by
  unfold add
  by_cases hc : q.max_size ≤ q.queue.length
  · have hne : 0 < q.queue.length := Nat.lt_of_lt_of_le h hc
    rw [if_pos hc]
    unfold vecRemove
    rw [if_pos hne]
    simp [eraseIdx_zero, hc]
  · rw [if_neg hc]
    simp [hc]

/-- Any operation sequence on a queue with `max_size ≥ 1` that currently
respects its bound completes and keeps the length within `max_size`. -/
theorem applyOps_bounded (ops : List QueueOp) :
    ∀ q : OfflineQueue, 1 ≤ q.max_size → q.queue.length ≤ q.max_size →
      ∃ q', applyOps q ops = some q' ∧ q'.max_size = q.max_size ∧
        q'.queue.length ≤ q.max_size := by
  induction ops with
  | nil => exact fun q _ h2 => ⟨q, rfl, rfl, h2⟩
  | cons op ops ih =>
    intro q h1 h2
    cases op with
    | add p =>
      have hstep := OfflineQueue.add_eq_of_pos q p h1
      have hlen : ((if q.max_size ≤ q.queue.length then q.queue.tail
          else q.queue) ++ [p]).length ≤ q.max_size := by
        by_cases hc : q.max_size ≤ q.queue.length
        · have hne : 0 < q.queue.length := Nat.lt_of_lt_of_le h1 hc
          simp [hc, List.length_tail]
          omega
        · simp [hc]
          omega
      obtain ⟨q', hq', hmax, hbound⟩ := ih
        (OfflineQueue.save_to_storage { q with
          queue := (if q.max_size ≤ q.queue.length then q.queue.tail
            else q.queue) ++ [p] })
        h1 hlen
      have hmax2 : q'.max_size = q.max_size := by
        simpa [OfflineQueue.save_to_storage] using hmax
      have hbound2 : q'.queue.length ≤ q.max_size := by
        simpa [OfflineQueue.save_to_storage] using hbound
      refine ⟨q', ?_, hmax2, hbound2⟩
      simp only [applyOps, applyOp, hstep]
      exact hq'
    | remove i =>
      have hlen : (q.remove i).queue.length ≤ q.max_size := by
        unfold OfflineQueue.remove
        by_cases hc : i < q.queue.length
        · rw [if_pos hc]
          have := List.length_eraseIdx_le q.queue i
          simp [OfflineQueue.save_to_storage]
          omega
        · rw [if_neg hc]
          exact h2
      have hmax : (q.remove i).max_size = q.max_size := by
        unfold OfflineQueue.remove
        by_cases hc : i < q.queue.length
        · rw [if_pos hc]
          rfl
        · rw [if_neg hc]

      obtain ⟨q', hq', hmax', hbound⟩ := ih (q.remove i) (by rw [hmax]; exact h1)
        (by rw [hmax]; exact hlen)
      exact ⟨q', by simpa [applyOps, applyOp] using hq', by rw [hmax', hmax],
        by rw [hmax] at hbound; exact hbound⟩
    | clear =>
      obtain ⟨q', hq', hmax', hbound⟩ := ih q.clear h1 (by simp [OfflineQueue.clear,
        OfflineQueue.save_to_storage])
      exact ⟨q', by simpa [applyOps, applyOp] using hq', hmax', hbound⟩

/-- Dropping all but the last `m` elements ignores a leading element
when at least `m` elements follow it. -/
theorem drop_len_sub_cons (a : α) (xs : List α) (m : Nat) (h : m ≤ xs.length) :
    (a :: xs).drop ((a :: xs).length - m) = xs.drop (xs.length - m) := by
  have hlen : (a :: xs).length - m = (xs.length - m) + 1 := by
    simp only [List.length_cons]
    omega
  rw [hlen, List.drop_succ_cons]

/-- Sequentially adding `ps` to a queue with `max_size ≥ 1` currently
within bound keeps, of the concatenated history, exactly the most recent
`max_size` payloads in order. -/
theorem applyOps_addAll (ps : List NotificationPayload) :
    ∀ q : OfflineQueue, 1 ≤ q.max_size → q.queue.length ≤ q.max_size →
      ∃ q', applyOps q (ps.map QueueOp.add) = some q' ∧
        q'.max_size = q.max_size ∧
        q'.queue = (q.queue ++ ps).drop ((q.queue ++ ps).length - q.max_size) := by
  induction ps with
  | nil =>
    intro q _ h2
    refine ⟨q, rfl, rfl, ?_⟩
    have h0 : (q.queue ++ []).length - q.max_size = 0 := by
      simp
      omega
    rw [h0]
    simp
  | cons p ps ih =>
    intro q h1 h2
    have hstep := OfflineQueue.add_eq_of_pos q p h1
    set q1 : OfflineQueue := OfflineQueue.save_to_storage { q with
      queue := (if q.max_size ≤ q.queue.length then q.queue.tail
        else q.queue) ++ [p] } with hq1
    have hq1max : q1.max_size = q.max_size := rfl
    have hq1len : q1.queue.length ≤ q.max_size := by
      rw [hq1]
      by_cases hc : q.max_size ≤ q.queue.length
      · have hne : 0 < q.queue.length := Nat.lt_of_lt_of_le h1 hc
        simp [OfflineQueue.save_to_storage, hc, List.length_tail]
        omega
      · simp [OfflineQueue.save_to_storage, hc]
        omega
    obtain ⟨q', hq', hmax, hqueue⟩ := ih q1 (by rw [hq1max]; exact h1)
      (by rw [hq1max]; exact hq1len)
    refine ⟨q', ?_, by rw [hmax, hq1max], ?_⟩
    · simp only [List.map_cons, applyOps, applyOp, hstep]
      exact hq'
    · rw [hqueue, hq1max]
      have hq1queue : q1.queue = (if q.max_size ≤ q.queue.length then q.queue.tail
          else q.queue) ++ [p] := rfl
      rw [hq1queue]
      by_cases hc : q.max_size ≤ q.queue.length
      · -- at capacity: the head is dropped, shifting the drop index by one
        have hlen0 : 0 < q.queue.length := Nat.lt_of_lt_of_le h1 hc
        obtain ⟨a, t, hat⟩ : ∃ a t, q.queue = a :: t := by
          cases hql : q.queue with
          | nil => rw [hql] at hlen0; simp at hlen0
          | cons a t => exact ⟨a, t, rfl⟩
        have hmle : q.max_size ≤ (t ++ p :: ps).length := by
          rw [hat] at hc
          simp only [List.length_cons] at hc
          simp only [List.length_append, List.length_cons]
          omega
        have hkey := drop_len_sub_cons a (t ++ p :: ps) q.max_size hmle
        rw [if_pos hc, hat]
        have e1 : (a :: t).tail ++ [p] ++ ps = t ++ p :: ps := by simp
        have e2 : (a :: t) ++ p :: ps = a :: (t ++ p :: ps) := by simp
        rw [e1, e2, hkey]
      · rw [if_neg hc]
        simp only [List.append_assoc, List.singleton_append]

/-- C1: with the probe reachable, `flush` sweeps the snapshot from the
newest element to the oldest, removing each delivered element from the
live queue by its snapshot index, and the first failure (at snapshot
index `m`) halts the sweep, leaving exactly the elements at indices
`0..m` (all older ones and the failed one) in the queue. -/
theorem flush_newest_first_stop_on_failure (tr : TransportModel)
    (c : NotifyClient) (q : OfflineQueue) (m : Nat) (pm : NotificationPayload)
    (hq : c.queue = some q)
    (hon : tr.is_online = true)
    (hm : q.queue[m]? = some pm)
    (hfail : (tr.send (c.sent_calls + (q.queue.length - 1 - m)) pm).success = false)
    (hsucc : ∀ i p, m < i → q.queue[i]? = some p →
      (tr.send (c.sent_calls + (q.queue.length - 1 - i)) p).success = true) :
    queueList (NotifyClient.flush tr c) = q.queue.take (m + 1) := by
  have hmlen : m < q.queue.length := (List.getElem?_eq_some.1 hm).1
  have hne : q.queue.isEmpty = false := by
    cases hql : q.queue with
    | nil => rw [hql] at hmlen; simp at hmlen
    | cons a t => simp [hql]
  have hmain := NotifyClient.flushSweep_fail_at tr q.queue q.queue.length q
    c.sent_calls m pm (Nat.le_refl _) (by rw [List.take_length]) hmlen hm
    (fun i p hmi _ hp => hsucc i p hmi hp) hfail
  rw [NotifyClient.flush_active tr c q hq hne hon]
  simpa [queueList] using hmain.1

/-- Witness for C1: the spec's example — queue `[B, C]`, transport fails
only for `C`: the sweep tries `C` first, fails, halts, and the queue
still holds `[B, C]`. -/
theorem flush_newest_first_stop_on_failure_witness :
    (trFailOnC.send (cBC.sent_calls + (2 - 1 - 1)) pC).success = false ∧
      queueList (NotifyClient.flush trFailOnC cBC) = [pB, pC] := by
  refine ⟨by decide, ?_⟩
  have h := flush_newest_first_stop_on_failure trFailOnC cBC
    { max_size := 2, debug := false, queue := [pB, pC], storage := some [pB, pC] }
    1 pC rfl rfl (by decide) (by decide)
    (fun i p hi hp => by
      have hlt : i < 2 := by
        have := (List.getElem?_eq_some.1 hp).1
        simpa using this
      omega)
  simpa using h

/-- C7: with the probe reachable and a nonempty queue, when the
transport delivers every attempt, `flush` empties the queue and sets the
is-online flag to true. -/
theorem flush_drains_queue (tr : TransportModel) (c : NotifyClient)
    (q : OfflineQueue)
    (hq : c.queue = some q)
    (hne : q.queue ≠ [])
    (hon : tr.is_online = true)
    (hsucc : ∀ i p, q.queue[i]? = some p →
      (tr.send (c.sent_calls + (q.queue.length - 1 - i)) p).success = true) :
    queueList (NotifyClient.flush tr c) = [] ∧
      (NotifyClient.flush tr c).is_online = true := by
  have hne' : q.queue.isEmpty = false := by
    cases hql : q.queue with
    | nil => exact absurd hql hne
    | cons a t => simp [hql]
  have hmain := NotifyClient.flushSweep_all_success tr q.queue q.queue.length q
    c.sent_calls (Nat.le_refl _) (by rw [List.take_length])
    (fun i p _ hp => hsucc i p hp)
  rw [NotifyClient.flush_active tr c q hq hne' hon]
  exact ⟨by simpa [queueList] using hmain.1, rfl⟩

/-- Witness for C7: flushing the two-element queue `[B, C]` against an
always-successful reachable transport empties it and marks the client
online. -/
theorem flush_drains_queue_witness :
    queueList (NotifyClient.flush trAllOk cBC) = [] ∧
      (NotifyClient.flush trAllOk cBC).is_online = true :=
  flush_drains_queue trAllOk cBC
    { max_size := 2, debug := false, queue := [pB, pC], storage := some [pB, pC] }
    rfl (by decide) rfl (fun i p _ => rfl)

/-- C6: `flush` is a no-op — the whole client state, in particular the
queue and the is-online flag, is unchanged and no delivery attempt is
made — when no queue is configured, or the queue is empty, or the
reachability probe reports unreachable. -/
theorem flush_noop_preconditions (tr : TransportModel) (c : NotifyClient)
    (h : c.queue = none ∨ (∃ q, c.queue = some q ∧ q.queue = []) ∨
      tr.is_online = false) :
    NotifyClient.flush tr c = c := by
  rcases h with h | ⟨q, hq, he⟩ | h
  · exact NotifyClient.flush_id_of_no_queue tr c h
  · exact NotifyClient.flush_id_of_empty tr c q hq he
  · exact NotifyClient.flush_id_of_offline tr c h

/-- Witness for C6: flushing a client with a nonempty queue against an
unreachable transport changes nothing. -/
theorem flush_noop_preconditions_witness :
    NotifyClient.flush trDown cFull1 = cFull1 :=
  flush_noop_preconditions trDown cFull1 (Or.inr (Or.inr rfl))

/-- C10: for every transport behaviour, `flush` leaves some prefix of
the original queue contents (so it never grows the queue and never
enqueues a new element — in particular a failed delivery is not
re-enqueued), and the is-online flag is either unchanged or true (a
failure inside `flush` never marks the client offline). -/
theorem flush_frame_properties (tr : TransportModel) (c : NotifyClient) :
    (∃ j, queueList (NotifyClient.flush tr c) = (queueList c).take j) ∧
      ((NotifyClient.flush tr c).is_online = c.is_online ∨
        (NotifyClient.flush tr c).is_online = true) := by
  cases hq : c.queue with
  | none =>
    rw [NotifyClient.flush_id_of_no_queue tr c hq]
    exact ⟨⟨(queueList c).length, (List.take_length _).symm⟩, Or.inl rfl⟩
  | some q =>
    by_cases he : q.queue.isEmpty = true
    · rw [NotifyClient.flush_id_of_empty tr c q hq (List.isEmpty_iff.1 he)]
      exact ⟨⟨(queueList c).length, (List.take_length _).symm⟩, Or.inl rfl⟩
    · by_cases hon : tr.is_online = true
      · have hne : q.queue.isEmpty = false := by
          cases h' : q.queue.isEmpty
          · rfl
          · exact absurd h' he
        obtain ⟨j, hj, hres⟩ := NotifyClient.flushSweep_take tr q.queue
          q.queue.length q c.sent_calls (Nat.le_refl _) (by rw [List.take_length])
        rw [NotifyClient.flush_active tr c q hq hne hon]
        refine ⟨⟨j, ?_⟩, Or.inr rfl⟩
        simpa [queueList, hq] using hres
      · have hoff : tr.is_online = false := by
          cases h' : tr.is_online
          · rfl
          · exact absurd h' hon
        rw [NotifyClient.flush_id_of_offline tr c hoff]
        exact ⟨⟨(queueList c).length, (List.take_length _).symm⟩, Or.inl rfl⟩

/-- C5: when the transport attempt succeeds, `send_payload` returns the
transport's result unchanged and the only state change is the transport
call counter: the queue (contents and size) and the is-online flag keep
their previous values. -/
theorem send_payload_success_frame (tr : TransportModel) (c : NotifyClient)
    (p : NotificationPayload)
    (h : (tr.send c.sent_calls p).success = true) :
    NotifyClient.send_payload tr c p =
      some (tr.send c.sent_calls p, { c with sent_calls := c.sent_calls + 1 }) := by
  unfold NotifyClient.send_payload
  simp [h]

/-- Witness for C5: an always-successful transport leaves the `[B, C]`
queue and the is-online flag of the client untouched. -/
theorem send_payload_success_frame_witness :
    (trAllOk.send cBC.sent_calls pA).success = true ∧
      NotifyClient.send_payload trAllOk cBC pA =
        some (trAllOk.send cBC.sent_calls pA, { cBC with sent_calls := 1 }) :=
  ⟨rfl, send_payload_success_frame trAllOk cBC pA rfl⟩

/-- Counterexample to C4 as stated: with the queue already at capacity
(`max_size = 1`, one element queued), a failed send enqueues the payload
but the queue size stays 1 — it does not increase by exactly one. -/
theorem send_payload_full_queue_counterexample :
    (NotifyClient.send_payload trDown cFull1 pB).map
        (fun r => ((queueList r.2).length, r.1.queued)) = some (1, true) ∧
      (queueList cFull1).length = 1 := by
  decide

/-- C4 (amended): when the transport attempt fails and a queue with
`max_size ≥ 1` is configured, `send_payload` appends the payload at the
tail of the queue — evicting the oldest element first when the queue is
at capacity, so the size grows by one only below capacity and is
unchanged at capacity — sets the is-online flag to false, and returns a
queued result whose reason is the original transport failure reason. -/
theorem send_payload_failure_enqueues (tr : TransportModel) (c : NotifyClient)
    (q : OfflineQueue) (p : NotificationPayload) (e : String)
    (hq : c.queue = some q)
    (hms : 1 ≤ q.max_size)
    (hfail : (tr.send c.sent_calls p).success = false)
    (herr : (tr.send c.sent_calls p).error = some e) :
    NotifyClient.send_payload tr c p =
      some (SendResult.mkQueued e,
        { c with
          queue := some (OfflineQueue.save_to_storage { q with
            queue := (if q.max_size ≤ q.queue.length then q.queue.tail
              else q.queue) ++ [p] })
          is_online := false
          sent_calls := c.sent_calls + 1 }) ∧
      ((if q.max_size ≤ q.queue.length then q.queue.tail else q.queue) ++ [p]).length =
        (if q.max_size ≤ q.queue.length then q.queue.length else q.queue.length + 1) := by
  constructor
  · unfold NotifyClient.send_payload
    simp [hfail, hq, OfflineQueue.add_eq_of_pos q p hms, herr]
  · by_cases hc : q.max_size ≤ q.queue.length
    · have hne : 0 < q.queue.length := Nat.lt_of_lt_of_le hms hc
      simp [hc, List.length_tail]
      omega
    · simp [hc]

/-- Witness for C4 (amended): a failing transport with a full capacity-1
queue yields a queued result carrying the original reason "net down",
marks the client offline, and replaces `[A]` by `[B]` (size still 1). -/
theorem send_payload_failure_enqueues_witness :
    (trDown.send cFull1.sent_calls pB).success = false ∧
      NotifyClient.send_payload trDown cFull1 pB =
        some (SendResult.mkQueued "net down",
          { cFull1 with
            queue := some { max_size := 1, debug := false, queue := [pB], storage := some [pB] }
            is_online := false
            sent_calls := 1 }) := by
  refine ⟨rfl, ?_⟩
  have h := send_payload_failure_enqueues trDown cFull1
    { max_size := 1, debug := false, queue := [pA], storage := some [pA] }
    pB "net down" rfl (by decide) rfl rfl
  exact h.1

/-- C9: `OfflineQueue::add` is total whenever `max_size ≥ 1`, and aborts
(`Vec::remove(0)` on an empty vector panics) when `max_size = 0` and the
queue is empty, because the eviction guard `len ≥ max_size` already
holds for the empty queue. -/
theorem add_totality_boundary (q : OfflineQueue) (p : NotificationPayload) :
    (1 ≤ q.max_size → (q.add p).isSome = true) ∧
      (q.max_size = 0 → q.queue = [] → q.add p = none) := by
  constructor
  · intro h
    rw [OfflineQueue.add_eq_of_pos q p h]
    rfl
  · intro h0 hnil
    unfold OfflineQueue.add
    simp [vecRemove, h0, hnil]

/-- Witness for C9: adding to a fresh capacity-2 queue succeeds; the
first add to a fresh capacity-0 queue panics. -/
theorem add_totality_boundary_witness :
    ((OfflineQueue.new 2 false none).add pA).isSome = true ∧
      (OfflineQueue.new 0 false none).add pA = none := by
  constructor
  · exact (add_totality_boundary (OfflineQueue.new 2 false none) pA).1 (by decide)
  · exact (add_totality_boundary (OfflineQueue.new 0 false none) pA).2 rfl rfl

/-- C8: a successful `add` leaves the persisted image equal to the
in-memory sequence, and a fresh queue constructed over that same storage
loads exactly that sequence (the round-trip); an in-bounds `remove` and
a `clear` likewise rewrite the full persisted image to match the
in-memory sequence. -/
theorem queue_persistence_roundtrip (q q' : OfflineQueue)
    (p : NotificationPayload) (i ms : Nat) (d : Bool) :
    (q.add p = some q' →
      q'.storage = some q'.queue ∧
        (OfflineQueue.new ms d q'.storage).queue = q'.queue) ∧
      (i < q.queue.length →
        (q.remove i).storage = some (q.remove i).queue) ∧
      q.clear.storage = some q.clear.queue := by
  refine ⟨?_, ?_, rfl⟩
  · intro h
    unfold OfflineQueue.add at h
    cases hc : (if q.max_size ≤ q.queue.length then vecRemove q.queue 0
        else some q.queue) with
    | none =>
      rw [hc] at h
      exact absurd h (by simp)
    | some l =>
      rw [hc] at h
      have hq' : q' = OfflineQueue.save_to_storage { q with queue := l ++ [p] } :=
        (Option.some.inj h).symm
      rw [hq']
      exact ⟨rfl, rfl⟩
  · intro h
    unfold OfflineQueue.remove
    rw [if_pos h]
    rfl

/-- Witness for C8: adding `B` to a persisted queue holding `[A]` stores
`[A, B]`, and reloading from that storage yields `[A, B]` again;
removing index 0 and clearing also leave storage equal to memory. -/
theorem queue_persistence_roundtrip_witness :
    (({ max_size := 2, debug := false, queue := [pA, pB], storage := some [pA, pB] } : OfflineQueue).storage =
      some [pA, pB]) ∧
      (OfflineQueue.new 2 false (some [pA, pB])).queue = [pA, pB] ∧
      (({ max_size := 2, debug := false, queue := [pA], storage := some [pA] } : OfflineQueue).remove 0).storage =
        some (({ max_size := 2, debug := false, queue := [pA], storage := some [pA] } : OfflineQueue).remove 0).queue ∧
      (({ max_size := 2, debug := false, queue := [pA], storage := some [pA] } : OfflineQueue).clear).storage =
        some (({ max_size := 2, debug := false, queue := [pA], storage := some [pA] } : OfflineQueue).clear).queue := by
  have h := queue_persistence_roundtrip
    { max_size := 2, debug := false, queue := [pA], storage := some [pA] }
    { max_size := 2, debug := false, queue := [pA, pB], storage := some [pA, pB] }
    pB 0 2 false
  have hadd := h.1 rfl
  exact ⟨hadd.1, hadd.2, h.2.1 (by decide), h.2.2⟩

/-- Counterexample to C3 as stated: `load_from_storage` does not
truncate, so a queue constructed with `max_size = 1` over a persisted
file holding two payloads has length 2 > `max_size` before any
operation runs. -/
theorem queue_bounded_fifo_counterexample :
    (OfflineQueue.new 1 false (some [pA, pB])).queue.length = 2 ∧
      (OfflineQueue.new 1 false (some [pA, pB])).max_size = 1 := by
  decide

/-- C3 (amended): provided `max_size ≥ 1` and the queue's current (e.g.
freshly loaded) length is within `max_size`, no sequence of operations
ever pushes the length beyond `max_size`; `add` at capacity evicts the
element at index 0 (the oldest), never the newest, before appending; and
adding `max_size + k` payloads to an initially empty queue leaves exactly
the most recent `max_size` payloads in oldest-first order. -/
theorem queue_bounded_fifo_amended (q : OfflineQueue) (ops : List QueueOp)
    (p : NotificationPayload) (m k : Nat) (d : Bool)
    (ps : List NotificationPayload) :
    (1 ≤ q.max_size → q.queue.length ≤ q.max_size →
      ∃ q', applyOps q ops = some q' ∧ q'.max_size = q.max_size ∧
        q'.queue.length ≤ q.max_size) ∧
      (1 ≤ q.max_size → q.max_size ≤ q.queue.length →
        q.add p = some (OfflineQueue.save_to_storage { q with
          queue := q.queue.tail ++ [p] })) ∧
      (1 ≤ m → ps.length = m + k →
        ∃ q', applyOps (OfflineQueue.new m d none) (ps.map QueueOp.add) = some q' ∧
          q'.queue = ps.drop k) := by
  refine ⟨fun h1 h2 => applyOps_bounded ops q h1 h2, ?_, ?_⟩
  · intro h1 h2
    rw [OfflineQueue.add_eq_of_pos q p h1]
    rw [if_pos h2]
  · intro hm hlen
    obtain ⟨q', hq', hmax, hqueue⟩ := applyOps_addAll ps (OfflineQueue.new m d none)
      hm (by simp [OfflineQueue.new])
    refine ⟨q', hq', ?_⟩
    rw [hqueue]
    have hnil : (OfflineQueue.new m d none).queue = [] := rfl
    have hmm : (OfflineQueue.new m d none).max_size = m := rfl
    rw [hnil, hmm, List.nil_append]
    rw [hlen]
    have : m + k - m = k := by omega
    rw [this]

/-- Witness for C3 (amended): adding `A, B, C` to an empty capacity-2
queue leaves `[B, C]`, and adding `C` to the full queue `[A, B]` evicts
`A`, giving `[B, C]`. -/
theorem queue_bounded_fifo_amended_witness :
    (∃ q', applyOps (OfflineQueue.new 2 false none)
        ([pA, pB, pC].map QueueOp.add) = some q' ∧ q'.queue = [pB, pC]) ∧
      ((OfflineQueue.new 2 false (some [pA, pB])).add pC).map OfflineQueue.queue =
        some [pB, pC] := by
  constructor
  · have h := (queue_bounded_fifo_amended (OfflineQueue.new 2 false none) [] pA 2 1
      false [pA, pB, pC]).2.2 (by decide) (by decide)
    exact h
  · rw [(queue_bounded_fifo_amended (OfflineQueue.new 2 false (some [pA, pB])) [] pC 0 0
      false []).2.1 (by decide) (by decide)]
    rfl

/-- Counterexample to C2 as stated: the builder only checks that a title
was SET, not that it is non-empty — setting the empty string as title
builds successfully, producing a payload whose title is `""`. -/
theorem build_accepts_empty_title :
    ((EventBuilder.new "order.created").with_title "").build =
      Except.ok (NotificationPayload.new "order.created" "") := rfl

/-- C2 (amended): building fails with the validation error exactly when
no title has been set; whenever a title has been set — the empty string
included — the build succeeds with that exact title (so builder-made
payloads can carry an empty title); on a failed build, `send` returns a
failure result carrying the validation message and performs no transport
call: the client is returned untouched and the outcome is independent of
the transport. -/
theorem build_requires_title_presence (b : EventBuilder) :
    (b.title = none →
      b.build = Except.error "Notification title is required" ∧
        ∀ (tr : TransportModel) (c : NotifyClient),
          b.send tr c = some (SendResult.mkFailure "Notification title is required", c)) ∧
      (∀ t, b.title = some t → ∃ payload, b.build = Except.ok payload ∧
        payload.title = t) := by
  constructor
  · intro h
    have hb : b.build = Except.error "Notification title is required" := by
      unfold EventBuilder.build
      rw [h]
    refine ⟨hb, fun tr c => ?_⟩
    unfold EventBuilder.send
    rw [hb]
  · intro t ht
    unfold EventBuilder.build
    rw [ht]
    exact ⟨_, rfl, rfl⟩

/-- Witness for C2 (amended): a builder with no title fails and sends
nothing; a builder with title "Hi" builds a payload titled "Hi". -/
theorem build_requires_title_presence_witness :
    ((EventBuilder.new "order.created").build =
        Except.error "Notification title is required" ∧
      (EventBuilder.new "order.created").send trAllOk cBC =
        some (SendResult.mkFailure "Notification title is required", cBC)) ∧
      ∃ payload, ((EventBuilder.new "order.created").with_title "Hi").build =
        Except.ok payload ∧ payload.title = "Hi" := by
  constructor
  · have h := (build_requires_title_presence (EventBuilder.new "order.created")).1 rfl
    exact ⟨h.1, h.2 trAllOk cBC⟩
  · exact (build_requires_title_presence
      ((EventBuilder.new "order.created").with_title "Hi")).2 "Hi" rfl
